import Mathlib

/- A shallow embedding of the aiosterisk AMI client engine
   (src/aiosterisk/protocol.py and src/aiosterisk/connection.py),
   together with theorems checking the specification claims against it.

   Machine integers are modelled as Nat with explicit reduction mod 2^32
   where the source (hashlib's md5) works on 32-bit words.  Python dicts
   are modelled as insertion-ordered association lists, asyncio futures as
   an explicit state type, and code that can raise is modelled in
   Except.  The callback type of event handlers is a type parameter C. -/

namespace Aiosterisk

/-- Python regex class backslash-s for str patterns: the Unicode whitespace
characters (space, tab, newline, carriage return, form/vertical feed, the
file/group/record separators 0x1c-0x1f, next-line 0x85, nbsp, and the
Unicode space code points). -/
def pyIsSpace (c : Char) : Bool :=
  [32, 9, 10, 13, 12, 11, 28, 29, 30, 31, 133, 160, 5760].contains c.toNat
    || (8192 ≤ c.toNat && c.toNat ≤ 8202)
    || [8232, 8233, 8239, 8287, 12288].contains c.toNat

/-- Single-character line boundaries of Python str.splitlines; the pair
carriage-return + line-feed is treated as one boundary in pySplitlinesAux. -/
def isLineBoundary (c : Char) : Bool :=
  [10, 13, 11, 12, 28, 29, 30, 133, 8232, 8233].contains c.toNat

/-- Worker for pySplitlines: acc holds the current line reversed. -/
def pySplitlinesAux : List Char → List Char → List String
  | [], acc => if acc.isEmpty then [] else [String.mk acc.reverse]
  | '\r' :: '\n' :: rest, acc => String.mk acc.reverse :: pySplitlinesAux rest []
  | c :: rest, acc =>
      if isLineBoundary c then String.mk acc.reverse :: pySplitlinesAux rest []
      else pySplitlinesAux rest (c :: acc)

/-- Python str.splitlines: split at line boundaries, no trailing empty line,
a trailing partial line is kept.  So "a\n\n" gives ["a", ""] and "ab" gives
["ab"]. -/
def pySplitlines (s : String) : List String := pySplitlinesAux s.data []

/-- A value stored in an assembled message dict: a field-value string, Python
None (stored for a `tag:` line whose optional value group did not match), or
the list of free-text lines kept by the assembler under the underscore key. -/
inductive PyVal where
  | none
  | str (s : String)
  | strList (l : List String)
deriving DecidableEq, Repr

/-- Lookup in an insertion-ordered association list (Python dict lookup,
returning Option instead of raising KeyError). -/
def alLookup {κ β : Type} [DecidableEq κ] : List (κ × β) → κ → Option β
  | [], _ => Option.none
  | (k2, v) :: t, k => if k2 = k then some v else alLookup t k

/-- Python dict assignment d[k] = v: overwrite in place when the key is
present (keeping its position), append otherwise. -/
def alSet {κ β : Type} [DecidableEq κ] : List (κ × β) → κ → β → List (κ × β)
  | [], k, v => [(k, v)]
  | (k2, v2) :: t, k, v => if k2 = k then (k2, v) :: t else (k2, v2) :: alSet t k v

/-- An assembled message: Python dict from field name to value. -/
abbrev Dict := List (String × PyVal)

/-- Python d.get(k): the stored value, or None when the key is absent. -/
def dictGet (d : Dict) (k : String) : PyVal := (alLookup d k).getD PyVal.none

/-- Python `k in d`. -/
def dictHasKey (d : Dict) (k : String) : Bool := (alLookup d k).isSome

/-- Convert an optional regex group to the Python value stored by dict
update: a missing group is Python None. -/
def groupVal : Option String → PyVal
  | Option.none => PyVal.none
  | some s => PyVal.str s

/-- Index of the last colon, at position at least 1, inside the longest
non-whitespace prefix: the split chosen by the greedy backtracking match of
the pattern caret (backslash-S plus) colon (backslash-s star) (dot plus)
optional, dollar - protocol.py line 54. -/
def lastColonIdx (p : List Char) : Option Nat :=
  ((List.range p.length).filter (fun i => decide (1 ≤ i) && (p[i]? == some ':'))).getLast?

/-- re.match of protocol.py line 54 on one tag line: on success returns the
two groups (token, optional value).  The token is the longest all
non-whitespace prefix that is followed by a colon; the value is the rest of
the line after greedily skipping whitespace, and is Option.none (group did
not participate) when that rest is empty. -/
def tagMatch (tag : String) : Option (String × Option String) :=
  let cs := tag.data
  let p := cs.takeWhile (fun c => ! pyIsSpace c)
  match lastColonIdx p with
  | Option.none => Option.none
  | some k =>
      let rest := (cs.drop (k + 1)).dropWhile pyIsSpace
      some (String.mk (cs.take k), if rest.isEmpty then Option.none else some (String.mk rest))

/-- The state of an asyncio.Future: pending, resolved by set_result,
resolved by set_exception with the AMICommandFailure argument, or
cancelled. -/
inductive FutState where
  | pending
  | done (result : Dict)
  | failed (exc : PyVal)
  | cancelled
deriving DecidableEq, Repr

/-- Python exceptions that the embedded code can raise. -/
inductive PyErr where
  | invalidStateError
  | attributeError
  | keyError
  | amiCommandFailure (arg : PyVal)
  | indexError
deriving DecidableEq, Repr

/-- The mutable state of an AMIProtocol object (protocol.py lines 13-25)
plus the `message` accumulator local to the running _dispatch_message task.
The transport is the written-bytes buffer when connected, none before
connection_made (Python self.transport is None, and writing raises
AttributeError).  objId stands for the CPython id(self) used in generated
action ids; hostname is the already formatted sockname string. -/
structure ProtoState (C : Type) where
  action_futures : List (String × FutState) := []
  event_handlers : List (String × List C) := []
  message : Dict := []
  hostname : String := ""
  objId : Nat := 0
  count : Nat := 0
  transport : Option String := Option.none
deriving Repr

/-- The ActionID branch of _dispatch_message (protocol.py lines 61-69): a
completed message with an ActionID key resolves the matching pending future,
failure when Response is Error, success otherwise.  The dict of futures is
keyed by the generated id strings, so a non-string ActionID value finds
nothing.  set_result / set_exception on a future that is not pending raise
InvalidStateError (the deletion of the table entry is commented out in the
source). -/
def routeActionId (futs : List (String × FutState)) (m : Dict) :
    Except PyErr (List (String × FutState)) :=
  if dictHasKey m "ActionID" then
    match dictGet m "ActionID" with
    | PyVal.str aid =>
        match alLookup futs aid with
        | some FutState.pending =>
            if dictGet m "Response" = PyVal.str "Error" then
              Except.ok (alSet futs aid (FutState.failed (dictGet m "Message")))
            else
              Except.ok (alSet futs aid (FutState.done m))
        | some _ => Except.error PyErr.invalidStateError
        | Option.none => Except.ok futs
    | _ => Except.ok futs
  else Except.ok futs

/-- The Event branch of _dispatch_message (protocol.py lines 70-73): the
callbacks scheduled via loop.call_soon, in registration order, each with the
full message.  The handler dict is keyed by the string names registered
through `on`, so a non-string Event value finds nothing. -/
def eventCalls {C : Type} [DecidableEq C] (handlers : List (String × List C)) (m : Dict) :
    List (C × Dict) :=
  if dictHasKey m "Event" then
    match dictGet m "Event" with
    | PyVal.str ev => ((alLookup handlers ev).getD []).map (fun cb => (cb, m))
    | _ => ([] : List (C × Dict))
  else []

/-- Routing of one completed message (protocol.py lines 60-73): the ActionID
branch runs first; if it raises, the Event branch is never reached. -/
def routeMessage {C : Type} [DecidableEq C] (futs : List (String × FutState))
    (handlers : List (String × List C)) (m : Dict) :
    Except PyErr (List (String × FutState) × List (C × Dict)) :=
  match routeActionId futs m with
  | Except.error e => Except.error e
  | Except.ok futs2 => Except.ok (futs2, eventCalls handlers m)

/-- Processing of one tag line by the _dispatch_message body (protocol.py
lines 52-74).  Returns the new state, the scheduled event callbacks, and the
completed messages handed to routing (instrumentation recording the value of
`message` at each non-empty blank-line flush).  A non-matching line is
appended to the list under the underscore key; if that key currently holds a
string or None (possible after a field line whose token is the underscore),
Python would raise AttributeError on .append. -/
def processTag {C : Type} [DecidableEq C] (st : ProtoState C) (tag : String) :
    Except PyErr (ProtoState C × List (C × Dict) × List Dict) :=
  if tag = "" then
    if st.message = [] then Except.ok (st, [], [])
    else
      match routeMessage st.action_futures st.event_handlers st.message with
      | Except.error e => Except.error e
      | Except.ok (futs2, calls) =>
          Except.ok ({ st with message := [], action_futures := futs2 }, calls, [st.message])
  else
    match tagMatch tag with
    | some (k, v) => Except.ok ({ st with message := alSet st.message k (groupVal v) }, [], [])
    | Option.none =>
        match alLookup st.message "_" with
        | Option.none =>
            Except.ok ({ st with message := alSet st.message "_" (PyVal.strList [tag]) }, [], [])
        | some (PyVal.strList l) =>
            Except.ok ({ st with message := alSet st.message "_" (PyVal.strList (l ++ [tag])) }, [], [])
        | some _ => Except.error PyErr.attributeError

/-- Processing of a list of tag lines in order, accumulating scheduled
callbacks and completed messages; an exception aborts the loop (only
CancelledError is caught by the task, so any of these errors kills it). -/
def processTags {C : Type} [DecidableEq C] (st : ProtoState C) :
    List String → Except PyErr (ProtoState C × List (C × Dict) × List Dict)
  | [] => Except.ok (st, [], [])
  | tag :: rest =>
      match processTag st tag with
      | Except.error e => Except.error e
      | Except.ok (st1, c1, e1) =>
          match processTags st1 rest with
          | Except.error e => Except.error e
          | Except.ok (st2, c2, e2) => Except.ok (st2, c1 ++ c2, e1 ++ e2)

/-- One iteration of the _dispatch_message loop on one queue item (protocol.py
lines 51-52): the chunk enqueued by data_received is split with splitlines and
each resulting line is handled; there is no carry of a partial line to the
next chunk. -/
def processChunk {C : Type} [DecidableEq C] (st : ProtoState C) (chunk : String) :
    Except PyErr (ProtoState C × List (C × Dict) × List Dict) :=
  processTags st (pySplitlines chunk)

/-- The decode task draining the queue: chunks arrive in data_received order
and are each processed independently. -/
def processChunks {C : Type} [DecidableEq C] (st : ProtoState C) :
    List String → Except PyErr (ProtoState C × List (C × Dict) × List Dict)
  | [] => Except.ok (st, [], [])
  | ch :: rest =>
      match processChunk st ch with
      | Except.error e => Except.error e
      | Except.ok (st1, c1, e1) =>
          match processChunks st1 rest with
          | Except.error e => Except.error e
          | Except.ok (st2, c2, e2) => Except.ok (st2, c1 ++ c2, e1 ++ e2)

/-- AMIProtocol._generateActionId (protocol.py lines 78-80): increment the
per-connection counter, then format hostname, id(self) and the counter,
joined by dashes.  Returns the updated state and the fresh id. -/
def generateActionId {C : Type} (st : ProtoState C) : ProtoState C × String :=
  let c := st.count + 1
  ({ st with count := c }, st.hostname ++ "-" ++ toString st.objId ++ "-" ++ toString c)

/-- The identifier that the next sendMessage call on this state generates. -/
def generatedId {C : Type} (st : ProtoState C) : String := (generateActionId st).2

/-- Python str.lower on one character (the field names fed to it are
ASCII). -/
def pyCharLower (c : Char) : Char :=
  if 65 ≤ c.toNat ∧ c.toNat ≤ 90 then Char.ofNat (c.toNat + 32) else c

/-- Python str.lower. -/
def pyLower (s : String) : String := String.mk (s.data.map pyCharLower)

/-- AMIProtocol.sendMessage (protocol.py lines 82-103).  A dict argument is
its items list.  A future is created and registered under a freshly
generated action id BEFORE any write; then the ActionID line, every field
whose lowercased name is not the identifier name (name lowercased, value as
given), and a terminating blank line are written.  With no transport
(self.transport is None before connection_made) the first write raises
AttributeError, after the future has already been registered.  On success
the result carries the action id of the returned future. -/
def sendMessage {C : Type} [DecidableEq C] (st : ProtoState C)
    (message : List (String × String)) : ProtoState C × Except PyErr String :=
  let data := message
  let (st1, actionid) := generateActionId st
  let st2 := { st1 with action_futures := alSet st1.action_futures actionid FutState.pending }
  match st2.transport with
  | Option.none => (st2, Except.error PyErr.attributeError)
  | some buf =>
      let out := "ActionID: " ++ actionid ++ "\n"
        ++ String.join ((data.filter (fun kv => pyLower kv.1 != "actionid")).map
              (fun kv => pyLower kv.1 ++ ": " ++ kv.2 ++ "\n"))
        ++ "\n"
      ({ st2 with transport := some (buf ++ out) }, Except.ok actionid)

/-- Truncation to a 32-bit word. -/
def u32 (x : Nat) : Nat := x % 4294967296

/-- 32-bit addition. -/
def u32add (a b : Nat) : Nat := (a + b) % 4294967296

/-- 32-bit bitwise complement. -/
def u32not (x : Nat) : Nat := 4294967295 - x % 4294967296

/-- 32-bit left rotation. -/
def rotl32 (x n : Nat) : Nat := ((x <<< n) ||| (x >>> (32 - n))) % 4294967296

/-- The 64 sine-derived constants T of the MD5 round operations (RFC 1321). -/
def md5K : List Nat :=
  [0xd76aa478, 0xe8c7b756, 0x242070db, 0xc1bdceee,
   0xf57c0faf, 0x4787c62a, 0xa8304613, 0xfd469501,
   0x698098d8, 0x8b44f7af, 0xffff5bb1, 0x895cd7be,
   0x6b901122, 0xfd987193, 0xa679438e, 0x49b40821,
   0xf61e2562, 0xc040b340, 0x265e5a51, 0xe9b6c7aa,
   0xd62f105d, 0x02441453, 0xd8a1e681, 0xe7d3fbc8,
   0x21e1cde6, 0xc33707d6, 0xf4d50d87, 0x455a14ed,
   0xa9e3e905, 0xfcefa3f8, 0x676f02d9, 0x8d2a4c8a,
   0xfffa3942, 0x8771f681, 0x6d9d6122, 0xfde5380c,
   0xa4beea44, 0x4bdecfa9, 0xf6bb4b60, 0xbebfbc70,
   0x289b7ec6, 0xeaa127fa, 0xd4ef3085, 0x04881d05,
   0xd9d4d039, 0xe6db99e5, 0x1fa27cf8, 0xc4ac5665,
   0xf4292244, 0x432aff97, 0xab9423a7, 0xfc93a039,
   0x655b59c3, 0x8f0ccc92, 0xffeff47d, 0x85845dd1,
   0x6fa87e4f, 0xfe2ce6e0, 0xa3014314, 0x4e0811a1,
   0xf7537e82, 0xbd3af235, 0x2ad7d2bb, 0xeb86d391]

/-- The per-round left-rotation amounts of MD5. -/
def md5S : List Nat :=
  [7, 12, 17, 22, 7, 12, 17, 22, 7, 12, 17, 22, 7, 12, 17, 22,
   5, 9, 14, 20, 5, 9, 14, 20, 5, 9, 14, 20, 5, 9, 14, 20,
   4, 11, 16, 23, 4, 11, 16, 23, 4, 11, 16, 23, 4, 11, 16, 23,
   6, 10, 15, 21, 6, 10, 15, 21, 6, 10, 15, 21, 6, 10, 15, 21]

/-- The MD5 round function for operation index i (F, G, H, I). -/
def md5F (i b c d : Nat) : Nat :=
  if i < 16 then (b &&& c) ||| (u32not b &&& d)
  else if i < 32 then (d &&& b) ||| (u32not d &&& c)
  else if i < 48 then b ^^^ c ^^^ d
  else c ^^^ (b ||| u32not d)

/-- The message-word index consumed by operation i of an MD5 block. -/
def md5G (i : Nat) : Nat :=
  if i < 16 then i
  else if i < 32 then (5 * i + 1) % 16
  else if i < 48 then (3 * i + 5) % 16
  else (7 * i) % 16

/-- One of the 64 operations of an MD5 block on the register quadruple. -/
def md5Step (M : List Nat) (st : Nat × Nat × Nat × Nat) (i : Nat) : Nat × Nat × Nat × Nat :=
  match st with
  | (a, b, c, d) =>
      let f := md5F i b c d
      let tmp := u32add (u32add (u32add a f) (md5K.getD i 0)) (M.getD (md5G i) 0)
      (d, u32add b (rotl32 tmp (md5S.getD i 0)), b, c)

/-- Process one 16-word block: 64 operations, then add to the incoming
state. -/
def md5Block (st : Nat × Nat × Nat × Nat) (M : List Nat) : Nat × Nat × Nat × Nat :=
  match st, (List.range 64).foldl (md5Step M) st with
  | (a0, b0, c0, d0), (a, b, c, d) => (u32add a0 a, u32add b0 b, u32add c0 c, u32add d0 d)

/-- Split a byte list into 64-byte blocks, with a fuel argument bounding the
number of blocks (blocks64 passes the list length, which always suffices
since every step drops 64 elements of a non-empty list). -/
def blocks64Go : Nat → List Nat → List (List Nat)
  | _, [] => []
  | 0, _ :: _ => []
  | fuel + 1, b :: t => (b :: t).take 64 :: blocks64Go fuel ((b :: t).drop 64)

/-- Split a byte list into 64-byte blocks. -/
def blocks64 (l : List Nat) : List (List Nat) := blocks64Go l.length l

/-- Little-endian bytes of a number, fixed width. -/
def toLEBytes (n width : Nat) : List Nat :=
  (List.range width).map (fun i => n >>> (8 * i) % 256)

/-- Group bytes into little-endian 32-bit words. -/
def bytesToWords : List Nat → List Nat
  | b0 :: b1 :: b2 :: b3 :: rest =>
      (b0 + 256 * b1 + 65536 * b2 + 16777216 * b3) :: bytesToWords rest
  | _ => []

/-- MD5 padding: a 0x80 byte, zeros to 56 mod 64, then the bit length as a
64-bit little-endian number. -/
def md5Pad (msg : List Nat) : List Nat :=
  msg ++ [128] ++ List.replicate ((120 - (msg.length + 1) % 64) % 64) 0
      ++ toLEBytes (msg.length * 8 % 18446744073709551616) 8

/-- UTF-8 encoding of one code point (Python str.encode default). -/
def utf8EncodeChar (c : Char) : List Nat :=
  let n := c.toNat
  if n < 128 then [n]
  else if n < 2048 then [192 + n / 64, 128 + n % 64]
  else if n < 65536 then [224 + n / 4096, 128 + n / 64 % 64, 128 + n % 64]
  else [240 + n / 262144, 128 + n / 4096 % 64, 128 + n / 64 % 64, 128 + n % 64]

/-- UTF-8 encoding of a string as a byte list. -/
def utf8Encode (s : String) : List Nat := (s.data.map utf8EncodeChar).flatten

/-- A hexadecimal digit character (lowercase). -/
def hexDigit (n : Nat) : Char := if n < 10 then Char.ofNat (48 + n) else Char.ofNat (87 + n)

/-- Two lowercase hex digits of a byte. -/
def byteHex (b : Nat) : String := String.mk [hexDigit (b / 16 % 16), hexDigit (b % 16)]

/-- hashlib md5(s.encode()).hexdigest(): the MD5 digest of the UTF-8 bytes
of s, as 32 lowercase hex characters. -/
def md5hex (s : String) : String :=
  let padded := md5Pad (utf8Encode s)
  match (blocks64 padded).foldl (fun st blk => md5Block st (bytesToWords blk))
      (0x67452301, 0xefcdab89, 0x98badcfe, 0x10325476) with
  | (a, b, c, d) =>
      String.join (((toLEBytes a 4) ++ toLEBytes b 4 ++ toLEBytes c 4 ++ toLEBytes d 4).map byteHex)

/-- Python str formatting of a value interpolated into a format string:
strings unchanged, None as the four letters None, a list as its repr. -/
def pyStrFormat : PyVal → String
  | PyVal.str s => s
  | PyVal.none => "None"
  | PyVal.strList l =>
      let q := String.mk [Char.ofNat 39]
      "[" ++ String.intercalate ", " (l.map (fun s => q ++ s ++ q)) ++ "]"

/-- The _loginChallengeResponse coroutine of AMIProtocol.login (protocol.py
lines 668-679).  First a Challenge request is sent; the awaited resolution
of its future is the challengeResp parameter (ok with the response message,
or error with the AMICommandFailure argument set by dispatch).  Only on a
successful challenge is the digest computed - md5 of the UTF-8 bytes of the
Challenge field value formatted into a string and concatenated with the
secret - and the second, Login, request sent.  Returns the final state, the
field list of the Login request when it was sent, and the outcome.  If the
first send itself raises (no transport) or the challenge fails, no Login
request exists; a challenge response without a Challenge key raises
KeyError. -/
def loginChallengeResponse {C : Type} [DecidableEq C] (st : ProtoState C)
    (username secret : String) (challengeResp : Except PyVal Dict) :
    ProtoState C × Option (List (String × String)) × Except PyErr String :=
  match sendMessage st [("Action", "Challenge"), ("AuthType", "MD5")] with
  | (st1, Except.error e) => (st1, Option.none, Except.error e)
  | (st1, Except.ok _) =>
      match challengeResp with
      | Except.error f => (st1, Option.none, Except.error (PyErr.amiCommandFailure f))
      | Except.ok challenge =>
          match alLookup challenge "Challenge" with
          | Option.none => (st1, Option.none, Except.error PyErr.keyError)
          | some v =>
              let key := md5hex (pyStrFormat v ++ secret)
              let fields := [("Action", "Login"), ("AuthType", "MD5"),
                             ("Username", username), ("Key", key)]
              let r2 := sendMessage st1 fields
              (r2.1, some fields, r2.2)

/-- Python enumerate on a list, from a start index. -/
def pyEnumerate {α : Type} (start : Nat) : List α → List (Nat × α)
  | [] => []
  | a :: t => (start, a) :: pyEnumerate (start + 1) t

/-- Python list.pop(i) for a non-negative index: remove the element at i,
IndexError when i is out of range. -/
def popAt {α : Type} (l : List α) (i : Nat) : Except PyErr (List α) :=
  if i < l.length then Except.ok (l.eraseIdx i) else Except.error PyErr.indexError

/-- Sequential pops of a pre-collected index list, as performed by the for
loop of AMIProtocol.off; each pop sees the list already shortened by the
previous ones. -/
def popAll {α : Type} (l : List α) : List Nat → Except PyErr (List α)
  | [] => Except.ok l
  | i :: rest =>
      match popAt l i with
      | Except.error e => Except.error e
      | Except.ok l2 => popAll l2 rest

/-- AMIProtocol.off (protocol.py lines 109-113): fetch the callback list for
the event name (a fresh empty list if unregistered), collect the indices of
all entries equal to the callback, then pop those indices one by one.  The
list stored in the handler dict is mutated in place, so the dict entry, when
present, ends up holding the popped list; an absent key stays absent (the
fresh list is discarded). -/
def off {C : Type} [DecidableEq C] (handlers : List (String × List C))
    (event : String) (cb : C) : Except PyErr (List (String × List C)) :=
  let events := (alLookup handlers event).getD []
  let idxs := ((pyEnumerate 0 events).filter (fun iv => iv.2 == cb)).map (fun iv => iv.1)
  match popAll events idxs with
  | Except.error e => Except.error e
  | Except.ok events2 =>
      Except.ok (if (alLookup handlers event).isSome then alSet handlers event events2 else handlers)

/-- The exception classes distinguished by AMIConnection.ping: the timeout
raised by asyncio.wait_for and the command failure set by dispatch. -/
inductive ExcClass where
  | timeoutError
  | amiCommandFailure
deriving DecidableEq, Repr

/-- How one awaited liveness probe ends: normally, or raising one of the two
exception classes. -/
inductive PingOutcome where
  | completed
  | raised (e : ExcClass)
deriving DecidableEq, Repr

/-- Lifecycle operations AMIConnection.ping can perform on itself. -/
inductive ConnOp where
  | close
  | connect
deriving DecidableEq, Repr

/-- Python truthiness of a class object: always true. -/
def pyTruthy (_c : ExcClass) : Bool := true

/-- The Python boolean `or` of two class objects: the first operand when it
is truthy, which a class object always is. -/
def pyOrClass (a b : ExcClass) : ExcClass := if pyTruthy a then a else b

/-- The single exception class named by the handler clause of
AMIConnection.ping (connection.py line 53), whose source expression is the
Python `or` of the TimeoutError and AMICommandFailure classes. -/
def pingHandledClass : ExcClass := pyOrClass ExcClass.timeoutError ExcClass.amiCommandFailure

/-- AMIConnection.ping (connection.py lines 50-55): await the Ping action
under a timeout; an exception matching the handler clause (isinstance test;
the two classes are unrelated, so equality of classes) triggers close() then
connect(), any other exception propagates to the caller.  Returns the
lifecycle operations performed, in order, and the propagated exception if
any. -/
def ping (outcome : PingOutcome) : List ConnOp × Option ExcClass :=
  match outcome with
  | PingOutcome.completed => ([], Option.none)
  | PingOutcome.raised e =>
      if e = pingHandledClass then ([ConnOp.close, ConnOp.connect], Option.none)
      else ([], some e)

theorem alLookup_alSet_self {κ β : Type} [DecidableEq κ] (d : List (κ × β)) (k : κ) (v : β) :
    alLookup (alSet d k v) k = some v := by
  induction d with
  | nil => simp [alSet, alLookup]
  | cons p t ih =>
      obtain ⟨k2, v2⟩ := p
      by_cases h : k2 = k
      · simp [alSet, alLookup, h]
      · simp [alSet, alLookup, h, ih]

theorem alLookup_alSet_ne {κ β : Type} [DecidableEq κ] (d : List (κ × β)) (k : κ) (v : β)
    (k2 : κ) (h : k2 ≠ k) : alLookup (alSet d k v) k2 = alLookup d k2 := by
  have h2 : ¬ k = k2 := Ne.symm h
  induction d with
  | nil => simp [alSet, alLookup, h2]
  | cons p t ih =>
      obtain ⟨k3, v3⟩ := p
      by_cases h3 : k3 = k
      · subst h3
        simp [alSet, alLookup, h2]
      · simp [alSet, alLookup, h3, ih]

/-- C1: delivering the same well-formed byte stream in different chunks
changes the assembled message sequence: the stream of one message split
inside its ActionID line parses into a different message than the stream
delivered whole, because each chunk is split into lines independently with
no partial-line carry (protocol.py lines 36-37 and 51-52). -/
theorem chunk_boundary_changes_parse :
    (processChunks ({} : ProtoState Nat) ["ActionID: 42\n\n"]).toOption.map (fun r => r.2.2)
        = some [[("ActionID", PyVal.str "42")]] ∧
    (processChunks ({} : ProtoState Nat) ["ActionID: 4", "2\n\n"]).toOption.map (fun r => r.2.2)
        = some [[("ActionID", PyVal.str "4"), ("_", PyVal.strList ["2"])]] ∧
    ([[("ActionID", PyVal.str "42")]] : List Dict)
        ≠ [[("ActionID", PyVal.str "4"), ("_", PyVal.strList ["2"])]] :=
  ⟨rfl, rfl, by decide⟩

/-- C2: a completed message whose ActionID field is the identifier of a
registered pending request resolves exactly that request - as a failure
carrying the Message field content when Response equals Error, as a success
carrying the full message otherwise - and leaves every other identifier of
the pending table untouched. -/
theorem dispatch_resolves_matching_request {C : Type} [DecidableEq C]
    (futs : List (String × FutState)) (handlers : List (String × List C)) (m : Dict)
    (aid : String) (hid : alLookup m "ActionID" = some (PyVal.str aid))
    (hfut : alLookup futs aid = some FutState.pending) :
    (routeMessage futs handlers m).toOption.map (fun r => alLookup r.1 aid)
        = some (some (if dictGet m "Response" = PyVal.str "Error"
            then FutState.failed (dictGet m "Message") else FutState.done m)) ∧
    ∀ b, b ≠ aid →
      (routeMessage futs handlers m).toOption.map (fun r => alLookup r.1 b)
          = some (alLookup futs b) := by
  have hk : dictHasKey m "ActionID" = true := by simp [dictHasKey, hid]
  have hg : dictGet m "ActionID" = PyVal.str aid := by simp [dictGet, hid]
  constructor
  · by_cases hr : dictGet m "Response" = PyVal.str "Error" <;>
      simp [routeMessage, routeActionId, hk, hg, hfut, hr, Except.toOption, alLookup_alSet_self]
  · intro b hb
    have hne : ∀ (d : List (String × FutState)) (v : FutState),
        alLookup (alSet d aid v) b = alLookup d b :=
      fun d v => alLookup_alSet_ne d aid v b hb
    by_cases hr : dictGet m "Response" = PyVal.str "Error" <;>
      simp [routeMessage, routeActionId, hk, hg, hfut, hr, Except.toOption, hne]

/-- Witness for C2: a concrete Response Error message for identifier 42
resolves that request as a failure carrying the Message field content. -/
theorem dispatch_resolves_matching_request_witness :
    (routeMessage [("42", FutState.pending), ("7", FutState.pending)]
        ([] : List (String × List Nat))
        [("Response", PyVal.str "Error"), ("ActionID", PyVal.str "42"),
         ("Message", PyVal.str "oops")]).toOption.map (fun r => alLookup r.1 "42")
      = some (some (if dictGet [("Response", PyVal.str "Error"), ("ActionID", PyVal.str "42"),
            ("Message", PyVal.str "oops")] "Response" = PyVal.str "Error"
          then FutState.failed (dictGet [("Response", PyVal.str "Error"),
            ("ActionID", PyVal.str "42"), ("Message", PyVal.str "oops")] "Message")
          else FutState.done [("Response", PyVal.str "Error"), ("ActionID", PyVal.str "42"),
            ("Message", PyVal.str "oops")])) :=
  (dispatch_resolves_matching_request [("42", FutState.pending), ("7", FutState.pending)]
    ([] : List (String × List Nat))
    [("Response", PyVal.str "Error"), ("ActionID", PyVal.str "42"),
     ("Message", PyVal.str "oops")] "42" rfl rfl).1

/-- C3 (code_bug): a second completed message carrying an already-resolved
identifier makes dispatch call set_result on a non-pending future, raising
InvalidStateError, which is not caught (only CancelledError is) and so
crashes the decode task: the deletion of the table entry is commented out at
protocol.py line 69, so the resolved future is found again. -/
theorem duplicate_response_crashes_dispatch :
    processChunks ({ action_futures := [("7", FutState.pending)] } : ProtoState Nat)
        ["ActionID: 7\n\nActionID: 7\n\n"] = Except.error PyErr.invalidStateError :=
  rfl

/-- C7 (code_bug): the handler clause of AMIConnection.ping is the Python
`or` of the two exception classes, which evaluates to TimeoutError alone, so
a probe ending in a command failure propagates the failure without closing
or reconnecting; only the timeout path closes the connection and re-runs
connect. -/
theorem ping_command_failure_propagates :
    ping (PingOutcome.raised ExcClass.amiCommandFailure)
        = ([], some ExcClass.amiCommandFailure) ∧
    ping (PingOutcome.raised ExcClass.timeoutError)
        = ([ConnOp.close, ConnOp.connect], Option.none) :=
  ⟨rfl, rfl⟩

/-- C4 (counterexample): a message assembled from the field line
`actionid: 42`, with a pending request registered under identifier 42, is
NOT correlated - after the message completes the future is still pending,
because dispatch looks up the exact key ActionID in the message dict. -/
theorem lowercase_actionid_not_correlated :
    (processChunks ({ action_futures := [("42", FutState.pending)] } : ProtoState Nat)
        ["actionid: 42\n\n"]).toOption.map (fun r => alLookup r.1.action_futures "42")
      = some (some FutState.pending) :=
  rfl

/-- C4 (amended): routing of the protocol-significant keys is case-sensitive
on the field name: a completed message without the exact key ActionID leaves
the whole pending table unchanged (whatever other spellings it carries), and
one without the exact key Event schedules no callbacks. -/
theorem routing_requires_exact_actionid_key {C : Type} [DecidableEq C]
    (futs : List (String × FutState)) (handlers : List (String × List C)) (m : Dict)
    (h1 : alLookup m "ActionID" = Option.none) :
    routeMessage futs handlers m = Except.ok (futs, eventCalls handlers m) ∧
    (alLookup m "Event" = Option.none → eventCalls handlers m = []) := by
  have hk : dictHasKey m "ActionID" = false := by simp [dictHasKey, h1]
  constructor
  · simp [routeMessage, routeActionId, hk]
  · intro h2
    simp [eventCalls, dictHasKey, h2]

/-- Witness for the amended C4 at a concrete message carrying only the
lowercase spellings of both keys. -/
theorem routing_requires_exact_actionid_key_witness :
    routeMessage [("42", FutState.pending)] [("X", [5])]
        [("actionid", PyVal.str "42"), ("event", PyVal.str "X")]
      = Except.ok ([("42", FutState.pending)],
          eventCalls [("X", [5])] [("actionid", PyVal.str "42"), ("event", PyVal.str "X")]) :=
  (routing_requires_exact_actionid_key [("42", FutState.pending)] [("X", [5])]
    [("actionid", PyVal.str "42"), ("event", PyVal.str "X")] rfl).1

/-- C5 (counterexample): a send whose field list already carries
ActionID 42 does NOT use it: the request is registered only under the
generated identifier, nothing is registered under 42, and the bytes written
carry the generated identifier line while the caller-supplied field is
dropped. -/
theorem caller_actionid_discarded :
    (sendMessage ({ hostname := "h:1", objId := 5, transport := some "" } : ProtoState Nat)
        [("ActionID", "42"), ("Action", "Ping")]).1.action_futures
      = [("h:1-5-1", FutState.pending)] ∧
    alLookup (sendMessage ({ hostname := "h:1", objId := 5, transport := some "" } : ProtoState Nat)
        [("ActionID", "42"), ("Action", "Ping")]).1.action_futures "42" = Option.none ∧
    (sendMessage ({ hostname := "h:1", objId := 5, transport := some "" } : ProtoState Nat)
        [("ActionID", "42"), ("Action", "Ping")]).1.transport
      = some "ActionID: h:1-5-1\naction: Ping\n\n" :=
  ⟨rfl, rfl, rfl⟩

/-- C5 (amended): sendMessage always generates a fresh identifier and
registers the pending request under it; any caller-supplied identifier field
(matched case-insensitively on the name) has no effect at all - the call
behaves exactly as if those fields were absent, since they are filtered out
of the written data and never consulted. -/
theorem send_ignores_caller_actionid {C : Type} [DecidableEq C] (st : ProtoState C)
    (message : List (String × String)) :
    sendMessage st message
        = sendMessage st (message.filter (fun kv => pyLower kv.1 != "actionid")) ∧
    alLookup (sendMessage st message).1.action_futures (generatedId st)
        = some FutState.pending := by
  have hidem : ∀ (l : List (String × String)) (p : (String × String) → Bool),
      (l.filter p).filter p = l.filter p :=
    fun l p => List.filter_eq_self.mpr (fun a ha => List.of_mem_filter ha)
  constructor
  · cases htr : st.transport <;>
      simp [sendMessage, generateActionId, htr, hidem]
  · cases htr : st.transport <;>
      simp [sendMessage, generateActionId, generatedId, htr, alLookup_alSet_self]

/-- C6 (counterexample): a send on a protocol that has no transport (never
connected) registers a pending request under the generated identifier and
then fails with AttributeError from the transport write - the claim that the
pending table is left unchanged is false. -/
theorem send_no_transport_registers_request :
    (sendMessage ({ hostname := "h:1", objId := 5 } : ProtoState Nat)
        [("Action", "Ping")]).1.action_futures = [("h:1-5-1", FutState.pending)] ∧
    (sendMessage ({ hostname := "h:1", objId := 5 } : ProtoState Nat)
        [("Action", "Ping")]).2 = Except.error PyErr.attributeError :=
  ⟨rfl, rfl⟩

/-- C6 (amended): sending on a connection with no transport raises
AttributeError (there is no connected-state check and no dedicated error),
and does so only after the PendingRequest has been registered: the table
gains the entry for the generated identifier. -/
theorem send_no_transport_attribute_error {C : Type} [DecidableEq C] (st : ProtoState C)
    (message : List (String × String)) (h : st.transport = Option.none) :
    (sendMessage st message).2 = Except.error PyErr.attributeError ∧
    alLookup (sendMessage st message).1.action_futures (generatedId st)
        = some FutState.pending := by
  constructor <;> simp [sendMessage, generateActionId, generatedId, h, alLookup_alSet_self]

/-- Witness for the amended C6 at a concrete disconnected state. -/
theorem send_no_transport_attribute_error_witness :
    (sendMessage ({ hostname := "n", objId := 3 } : ProtoState Nat) [("Action", "Status")]).2
        = Except.error PyErr.attributeError ∧
    alLookup (sendMessage ({ hostname := "n", objId := 3 } : ProtoState Nat)
        [("Action", "Status")]).1.action_futures
        (generatedId ({ hostname := "n", objId := 3 } : ProtoState Nat))
      = some FutState.pending :=
  send_no_transport_attribute_error ({ hostname := "n", objId := 3 } : ProtoState Nat)
    [("Action", "Status")] rfl

set_option maxRecDepth 10000

/-- The md5hex embedding agrees with the RFC 1321 test digest of abc,
evidence that the modelled hash is the md5 the source calls. -/
theorem md5hex_rfc1321_abc : md5hex "abc" = "900150983cd24fb0d6963f7d28e17f72" := by decide

/-- C8: in challenge/response login the Key field of the second (Login)
request equals the md5 hex digest of the challenge value concatenated with
the shared secret, and when the first (Challenge) request fails no second
request is built or sent at all. -/
theorem challenge_login_key_and_sequencing {C : Type} [DecidableEq C] (st : ProtoState C)
    (username secret : String) (w : String) (hw : st.transport = some w) :
    (∀ f, (loginChallengeResponse st username secret (Except.error f)).2.1 = Option.none) ∧
    (∀ m c, alLookup m "Challenge" = some (PyVal.str c) →
        ((loginChallengeResponse st username secret (Except.ok m)).2.1).map
            (fun fields => alLookup fields "Key")
          = some (some (md5hex (c ++ secret)))) := by
  constructor
  · intro f
    simp [loginChallengeResponse, sendMessage, generateActionId, hw]
  · intro m c hc
    simp [loginChallengeResponse, sendMessage, generateActionId, hw, hc, pyStrFormat, alLookup]

/-- Witness for C8: with a concrete connected state, a challenge value
abc123 and secret secret, the second request carries the digest of
abc123secret; the failing challenge sends no second request. -/
theorem challenge_login_key_and_sequencing_witness :
    ((loginChallengeResponse ({ hostname := "h", objId := 1, transport := some "" } : ProtoState Nat)
        "admin" "secret" (Except.ok [("Challenge", PyVal.str "abc123")])).2.1).map
        (fun fields => alLookup fields "Key")
      = some (some (md5hex ("abc123" ++ "secret"))) ∧
    (loginChallengeResponse ({ hostname := "h", objId := 1, transport := some "" } : ProtoState Nat)
        "admin" "secret" (Except.error (PyVal.str "denied"))).2.1 = Option.none :=
  ⟨(challenge_login_key_and_sequencing
      ({ hostname := "h", objId := 1, transport := some "" } : ProtoState Nat)
      "admin" "secret" "" rfl).2 [("Challenge", PyVal.str "abc123")] "abc123" rfl,
   (challenge_login_key_and_sequencing
      ({ hostname := "h", objId := 1, transport := some "" } : ProtoState Nat)
      "admin" "secret" "" rfl).1 (PyVal.str "denied")⟩

/-- C9 (counterexample): the line `Key:` - a colon with no value - stores
Python None under Key, which is a different value than the empty string the
claim requires. -/
theorem colon_no_value_records_none :
    (processTag ({} : ProtoState Nat) "Key:").toOption.map
        (fun r => alLookup r.1.message "Key") = some (some PyVal.none) ∧
    PyVal.none ≠ PyVal.str "" :=
  ⟨rfl, by decide⟩

/-- C9 (amended): for each non-empty line, a regex match records the token
with the matched value or Python None (not the empty string) when nothing
follows the colon, overwriting any prior value of that field and leaving
all other fields unchanged; a non-matching line is appended to the
free-text list under the underscore key (created on first use), preserving
order and leaving all other fields unchanged. -/
theorem assembler_records_match_or_freetext {C : Type} [DecidableEq C]
    (st : ProtoState C) (tag : String) (hne : ¬ tag = "") :
    (∀ k v, tagMatch tag = some (k, v) →
        (processTag st tag).toOption.map (fun r => alLookup r.1.message k)
            = some (some (groupVal v)) ∧
        ∀ k2, k2 ≠ k → (processTag st tag).toOption.map (fun r => alLookup r.1.message k2)
            = some (alLookup st.message k2)) ∧
    (tagMatch tag = Option.none → alLookup st.message "_" = Option.none →
        (processTag st tag).toOption.map (fun r => alLookup r.1.message "_")
            = some (some (PyVal.strList [tag])) ∧
        ∀ k2, k2 ≠ "_" → (processTag st tag).toOption.map (fun r => alLookup r.1.message k2)
            = some (alLookup st.message k2)) ∧
    (tagMatch tag = Option.none → ∀ l, alLookup st.message "_" = some (PyVal.strList l) →
        (processTag st tag).toOption.map (fun r => alLookup r.1.message "_")
            = some (some (PyVal.strList (l ++ [tag]))) ∧
        ∀ k2, k2 ≠ "_" → (processTag st tag).toOption.map (fun r => alLookup r.1.message k2)
            = some (alLookup st.message k2)) := by
  refine ⟨?_, ?_, ?_⟩
  · intro k v hm
    constructor
    · simp [processTag, hne, hm, Except.toOption, alLookup_alSet_self]
    · intro k2 hk2
      have hfr : ∀ v2, alLookup (alSet st.message k v2) k2 = alLookup st.message k2 :=
        fun v2 => alLookup_alSet_ne _ _ _ _ hk2
      simp [processTag, hne, hm, Except.toOption, hfr]
  · intro hm hu
    constructor
    · simp [processTag, hne, hm, hu, Except.toOption, alLookup_alSet_self]
    · intro k2 hk2
      have hfr : ∀ v2, alLookup (alSet st.message "_" v2) k2 = alLookup st.message k2 :=
        fun v2 => alLookup_alSet_ne _ _ _ _ hk2
      simp [processTag, hne, hm, hu, Except.toOption, hfr]
  · intro hm l hu
    constructor
    · simp [processTag, hne, hm, hu, Except.toOption, alLookup_alSet_self]
    · intro k2 hk2
      have hfr : ∀ v2, alLookup (alSet st.message "_" v2) k2 = alLookup st.message k2 :=
        fun v2 => alLookup_alSet_ne _ _ _ _ hk2
      simp [processTag, hne, hm, hu, Except.toOption, hfr]

/-- Witness for the amended C9: the matching line `Result: ok` records the
pair, and the non-matching line `output text` lands in the free-text list. -/
theorem assembler_records_match_or_freetext_witness :
    (processTag ({} : ProtoState Nat) "Result: ok").toOption.map
        (fun r => alLookup r.1.message "Result") = some (some (groupVal (some "ok"))) ∧
    (processTag ({} : ProtoState Nat) "output text").toOption.map
        (fun r => alLookup r.1.message "_") = some (some (PyVal.strList ["output text"])) :=
  ⟨((assembler_records_match_or_freetext ({} : ProtoState Nat) "Result: ok"
      (by decide)).1 "Result" (some "ok") rfl).1,
   ((assembler_records_match_or_freetext ({} : ProtoState Nat) "output text"
      (by decide)).2.1 rfl rfl).1⟩

theorem pyEnumerate_filter_count_zero {C : Type} [DecidableEq C] (l : List C) (cb : C)
    (h : l.count cb = 0) (start : Nat) :
    (pyEnumerate start l).filter (fun iv => iv.2 == cb) = [] := by
  induction l generalizing start with
  | nil => simp [pyEnumerate]
  | cons a t ih =>
      rw [List.count_cons] at h
      have ha : ¬ a = cb := by
        intro hh
        simp [hh] at h
      have ht : t.count cb = 0 := by
        by_cases hb : (a == cb) = true
        · exact absurd (by exact beq_iff_eq.mp hb) ha
        · simp [hb] at h
          exact h
      simp [pyEnumerate, ha, ih ht]

theorem pyEnumerate_filter_count_one {C : Type} [DecidableEq C] (l : List C) (cb : C)
    (h : l.count cb = 1) (start : Nat) :
    ∃ k, k < l.length ∧
      ((pyEnumerate start l).filter (fun iv => iv.2 == cb)).map (fun iv => iv.1)
          = [start + k] ∧
      l.eraseIdx k = l.erase cb := by
  induction l generalizing start with
  | nil => simp at h
  | cons a t ih =>
      rw [List.count_cons] at h
      by_cases ha : a = cb
      · have ht : t.count cb = 0 := by
          simp [ha] at h
          exact h
        refine ⟨0, by simp, ?_, ?_⟩
        · simp [pyEnumerate, ha, pyEnumerate_filter_count_zero t cb ht (start + 1)]
        · simp [List.eraseIdx, List.erase_cons, ha]
      · have ht : t.count cb = 1 := by
          simp [ha] at h
          exact h
        obtain ⟨k, hk, hmap, herase⟩ := ih ht (start + 1)
        refine ⟨k + 1, by simpa using Nat.succ_lt_succ hk, ?_, ?_⟩
        · simp [pyEnumerate, ha, hmap, Nat.add_assoc, Nat.add_comm 1 k]
        · simp [List.eraseIdx, List.erase_cons, ha, herase]

/-- C10: when a callback is registered exactly once under an event name,
off removes exactly that registration - the stored list becomes the old one
with that single occurrence erased, keeping the other callbacks in their
relative order - and the registrations under every other event name are
untouched. -/
theorem off_removes_unique_registration {C : Type} [DecidableEq C]
    (handlers : List (String × List C)) (event : String) (cb : C) (l : List C)
    (hl : alLookup handlers event = some l) (hc : l.count cb = 1) :
    off handlers event cb = Except.ok (alSet handlers event (l.erase cb)) ∧
    ∀ e2, e2 ≠ event →
      alLookup (alSet handlers event (l.erase cb)) e2 = alLookup handlers e2 := by
  obtain ⟨k, hk, hmap, herase⟩ := pyEnumerate_filter_count_one l cb hc 0
  constructor
  · simp only [Nat.zero_add] at hmap
    simp [off, hl, hmap, popAll, popAt, hk, herase]
  · intro e2 he2
    exact alLookup_alSet_ne handlers event (l.erase cb) e2 he2

/-- Witness for C10: removing callback 2, registered once under X, erases
exactly it and leaves Y alone. -/
theorem off_removes_unique_registration_witness :
    off ([("X", [1, 2, 3]), ("Y", [9])] : List (String × List Nat)) "X" 2
        = Except.ok (alSet ([("X", [1, 2, 3]), ("Y", [9])] : List (String × List Nat)) "X"
            ([1, 2, 3].erase 2)) :=
  (off_removes_unique_registration [("X", [1, 2, 3]), ("Y", [9])] "X" 2 [1, 2, 3]
    rfl (by decide)).1

end Aiosterisk
